import Mathlib

/-!
Verification development for the research-assistant repository.

The Paper Store (backend/agents/db_agent.py, backend/database/neo4j_handler.py)
is modelled as an explicit property graph with MERGE and SET given their Cypher
semantics.  The QA orchestrator (backend/agents/qa_agent.py), the Writing
orchestrator (backend/agents/future_works_agent.py) and the answer endpoint
(backend/main.py) are modelled as pure functions; the external generation
engine, extractive QA pipeline and embedding ranker are passed in as oracle
parameters.  Python string slicing, stripping and substring tests are modelled
on the code-point list underlying a string.
-/

/-- Python style slice s[:n], counted in code points. -/
def strTake (s : String) (n : Nat) : String := ⟨s.data.take n⟩

/-- Python style slice s[n:], counted in code points. -/
def strDrop (s : String) (n : Nat) : String := ⟨s.data.drop n⟩

/-- Whitespace characters removed by Python str.strip in the texts that occur here. -/
def isSpaceChar (c : Char) : Bool := c == ' ' || c == '\t' || c == '\n' || c == '\r'

/-- Python str.strip: drop leading and trailing whitespace. -/
def pyStrip (s : String) : String :=
  ⟨((s.data.dropWhile isSpaceChar).reverse.dropWhile isSpaceChar).reverse⟩

/-- Substring test on code-point lists: does sub occur contiguously in the list? -/
def listContainsSub (sub : List Char) : List Char → Bool
  | [] => sub.isEmpty
  | c :: t => List.isPrefixOf sub (c :: t) || listContainsSub sub t

/-- Substring containment on strings, the semantics of Python in and Cypher CONTAINS
(case sensitive). -/
def strContains (s sub : String) : Bool := listContainsSub sub.data s.data

namespace DBAgent

/-- The Paper dataclass of backend/agents/db_agent.py.  keywords defaults to None. -/
structure Paper where
  id : String
  title : String
  authors : List String
  summary : String
  year : Int
  url : String
  keywords : Option (List String)
deriving DecidableEq

/-- A Paper node of the property graph: the properties written by createPaperTx. -/
structure PaperNode where
  id : String
  title : String
  summary : String
  year : Int
  url : String
deriving DecidableEq

/-- The property graph persisted by the Paper Store: Paper, Author and Keyword nodes
with AUTHORED and HAS_KEYWORD relationships. -/
structure GraphDB where
  papers : List PaperNode
  authors : List String
  keywords : List String
  authored : List (String × String)
  hasKeyword : List (String × String)
deriving DecidableEq

/-- Cypher MERGE on a node identified by a name: create only if absent. -/
def mergeName (l : List String) (x : String) : List String :=
  if x ∈ l then l else l ++ [x]

/-- Cypher MERGE on a relationship: create only if absent. -/
def mergeEdge (l : List (String × String)) (e : String × String) : List (String × String) :=
  if e ∈ l then l else l ++ [e]

/-- The SET clause of createPaperTx: overwrite the node properties, id untouched. -/
def setFields (n : PaperNode) (p : Paper) : PaperNode :=
  { n with title := p.title, summary := p.summary, year := p.year, url := p.url }

/-- Cypher MERGE (p:Paper with the given id) followed by SET of the fields: match every
node with that id and overwrite its properties, or create a fresh node when none exists. -/
def mergePaperNode (papers : List PaperNode) (p : Paper) : List PaperNode :=
  if papers.any (fun n => n.id == p.id) then
    papers.map (fun n => if n.id == p.id then setFields n p else n)
  else
    papers ++ [⟨p.id, p.title, p.summary, p.year, p.url⟩]

/-- Transaction body of DBAgent.store_paper: MERGE and SET the Paper node, then MERGE
every author with its AUTHORED edge and every keyword with its HAS_KEYWORD edge.
The returned Bool models result.single() being non-None: the UNWIND clauses produce
a row only when both the author list and the keyword list are non-empty. -/
def createPaperTx (db : GraphDB) (p : Paper) : GraphDB × Bool :=
  let ks := p.keywords.getD []
  let db1 : GraphDB := { db with papers := mergePaperNode db.papers p }
  let db2 := p.authors.foldl (fun d a =>
    { d with authors := mergeName d.authors a,
             authored := mergeEdge d.authored (a, p.id) }) db1
  let db3 := ks.foldl (fun d k =>
    { d with keywords := mergeName d.keywords k,
             hasKeyword := mergeEdge d.hasKeyword (p.id, k) }) db2
  (db3, !p.authors.isEmpty && !ks.isEmpty)

/-- DBAgent.store_paper: run the transaction inside a session; any storage error is
caught, logged and turned into False with the graph left unchanged. -/
def store_paper (db : GraphDB) (sessionErr : Option String) (paper : Paper) :
    (GraphDB × Bool) × List String :=
  match sessionErr with
  | some e => ((db, false), ["Error storing paper " ++ paper.id ++ ": " ++ e])
  | none => (createPaperTx db paper, [])

/-- Names of the authors related to a paper node, as collect(DISTINCT a.name). -/
def authorsOf (db : GraphDB) (pid : String) : List String :=
  ((db.authored.filter (fun e => e.2 == pid)).map (fun e => e.1)).dedup

/-- Names of the keywords related to a paper node, as collect(DISTINCT k.name). -/
def keywordsOf (db : GraphDB) (pid : String) : List String :=
  ((db.hasKeyword.filter (fun e => e.1 == pid)).map (fun e => e.2)).dedup

/-- Descending order on publication year, the ORDER BY p.year DESC of the search query. -/
def yearGe (a b : PaperNode) : Prop := b.year ≤ a.year

instance : DecidableRel yearGe := fun a b => Int.decLe b.year a.year

instance : IsTotal PaperNode yearGe := ⟨fun a b => le_total b.year a.year⟩

instance : IsTrans PaperNode yearGe := ⟨fun _ _ _ h1 h2 => le_trans h2 h1⟩

/-- The WHERE clause of the search query together with the two plain MATCH clauses:
year at least the threshold, topic a substring of title or summary, and at least one
author and one keyword (a non-optional MATCH filters out papers without them). -/
def matchesQuery (db : GraphDB) (topic : String) (startYear : Int) (n : PaperNode) : Bool :=
  decide (startYear ≤ n.year) &&
    (strContains n.title topic || strContains n.summary topic) &&
    !(authorsOf db n.id).isEmpty && !(keywordsOf db n.id).isEmpty

/-- Transaction body of DBAgent.query_papers: filter, order by year descending,
take at most limit rows, and join each paper with its authors and keywords. -/
def queryPapersTx (db : GraphDB) (topic : String) (startYear : Int) (limit : Nat) :
    List Paper :=
  (((db.papers.filter (matchesQuery db topic startYear)).insertionSort yearGe).take limit).map
    (fun n => ⟨n.id, n.title, authorsOf db n.id, n.summary, n.year, n.url,
               some (keywordsOf db n.id)⟩)

/-- DBAgent.query_papers: any storage error is caught, logged and turned into []. -/
def query_papers (db : GraphDB) (sessionErr : Option String) (topic : String)
    (startYear : Int) (limit : Nat) : List Paper × List String :=
  match sessionErr with
  | some e => ([], ["Error querying papers: " ++ e])
  | none => (queryPapersTx db topic startYear limit, [])

/-- Number of keyword nodes shared by two papers, the count(k) of the related query. -/
def sharedKeywords (db : GraphDB) (pid qid : String) : Nat :=
  ((keywordsOf db pid).filter (fun k => (keywordsOf db qid).contains k)).length

/-- Descending order on the shared-keyword count against the queried paper. -/
def sharedGe (db : GraphDB) (pid : String) (a b : PaperNode) : Prop :=
  sharedKeywords db pid b.id ≤ sharedKeywords db pid a.id

instance (db : GraphDB) (pid : String) : DecidableRel (sharedGe db pid) :=
  fun a b => Nat.decLe (sharedKeywords db pid b.id) (sharedKeywords db pid a.id)

instance (db : GraphDB) (pid : String) : IsTotal PaperNode (sharedGe db pid) :=
  ⟨fun a b => le_total (sharedKeywords db pid b.id) (sharedKeywords db pid a.id)⟩

instance (db : GraphDB) (pid : String) : IsTrans PaperNode (sharedGe db pid) :=
  ⟨fun _ _ _ h1 h2 => le_trans h2 h1⟩

/-- Transaction body of DBAgent.get_related_papers: papers sharing at least one keyword
with the queried paper, excluding the queried id, ordered by descending shared-keyword
count, limited, then joined with authors and keywords (the author MATCH after the LIMIT
drops any authorless survivor). -/
def getRelatedPapersTx (db : GraphDB) (paperId : String) (limit : Nat) : List Paper :=
  if db.papers.any (fun n => n.id == paperId) then
    let cands := db.papers.filter (fun q =>
      (q.id != paperId) && decide (0 < sharedKeywords db paperId q.id))
    let top := (cands.insertionSort (sharedGe db paperId)).take limit
    (top.filter (fun q => !(authorsOf db q.id).isEmpty)).map
      (fun n => ⟨n.id, n.title, authorsOf db n.id, n.summary, n.year, n.url,
                 some (keywordsOf db n.id)⟩)
  else []

/-- DBAgent.get_related_papers: any storage error is caught, logged and turned into []. -/
def get_related_papers (db : GraphDB) (sessionErr : Option String) (paperId : String)
    (limit : Nat) : List Paper × List String :=
  match sessionErr with
  | some e => ([], ["Error finding related papers: " ++ e])
  | none => (getRelatedPapersTx db paperId limit, [])

/-- Well-formedness maintained by the store: no two Paper nodes share an id. -/
def WF (db : GraphDB) : Prop := (db.papers.map (fun n => n.id)).Nodup

end DBAgent

namespace Neo4jHandler

/-- An Image node as returned inside the get_paper_by_id record. -/
structure ImageNode where
  page : Int
  index : Int
  type : String
deriving DecidableEq

/-- The dictionary built by Neo4jHandler.get_paper_by_id from a matched record. -/
structure PaperRec where
  id : String
  title : String
  images : List ImageNode
deriving DecidableEq

/-- Neo4jHandler.get_paper_by_id: the try/except sits inside the
async with self.driver.session() block, so an exception raised while acquiring the
session propagates uncaught to the caller (with the synchronous driver bound in this
repository, the asynchronous context manager protocol itself raises there, before the
body runs); only an error raised by the query or record stage inside the block is
caught, logged and turned into None. -/
def get_paper_by_id (sessionOutcome : Except String Unit)
    (queryOutcome : Except String (Option PaperRec)) (paperId : String) :
    Except String (Option PaperRec × List String) :=
  match sessionOutcome with
  | .error e => .error e
  | .ok _ =>
    match queryOutcome with
    | .ok r => .ok (r, [])
    | .error e => .ok (none, ["Error fetching paper by id " ++ paperId ++ ": " ++ e])

end Neo4jHandler

namespace Schemas

/-- The Paper model of backend/models/schemas.py. -/
structure Paper where
  id : String
  title : String
  authors : List String
  abstract : String
  year : Int
  url : String
  has_full_text : Bool
  has_images : Bool
  full_text : Option String
  images : Option (List Neo4jHandler.ImageNode)
deriving DecidableEq

end Schemas

namespace QAAgent

/-- The context dictionary produced by the effective QAAgent._process_paper, which is the
later of the two definitions of that method in the source and therefore the one bound on
the class. -/
structure Ctx where
  paper_id : String
  title : String
  text : String
  year : Int
deriving DecidableEq

/-- The answer dictionary returned by QAAgent._generate_answer; the confidence score of
the extractive pipeline is modelled as a rational. -/
structure AnswerD where
  text : String
  confidence : ℚ
deriving DecidableEq

/-- A source entry of the effective QAAgent._format_response, the later of the two
definitions of that method in the source. -/
structure SourceEntry where
  paper_id : String
  title : String
  year : Int
  excerpt : String
deriving DecidableEq

/-- The response dictionary of the effective QAAgent._format_response. -/
structure QAResponse where
  text : String
  confidence : ℚ
  sources : List SourceEntry
  context_used : String
deriving DecidableEq

/-- Record of the external calls a run makes: the question and truncated context sent to
the extractive QA pipeline, and the prompts sent to the causal language model. -/
structure CallTrace where
  pipelineCalls : List (String × String)
  llmPrompts : List String
deriving DecidableEq

/-- The external engines: the extractive QA pipeline yields an optional score or raises,
and the causal language model yields generated text or raises. -/
structure GenOracles where
  qaPipeline : String → String → Except String (Option ℚ)
  llmGenerate : String → Except String String

/-- The prompt built inside QAAgent._generate_answer. -/
def promptFor (question : String) : String := "Question: " ++ question ++ "\nAnswer:"

/-- QAAgent._generate_answer: call the extractive pipeline on the context truncated to
500 characters, then ask the causal model to continue the prompt, strip the prompt from
the decoded text, and report the pipeline score; any exception in either step degrades
to the fixed failure answer with zero confidence. -/
def generateAnswer (o : GenOracles) (question context : String) : AnswerD × CallTrace :=
  let truncated := strTake context 500
  match o.qaPipeline question truncated with
  | .error _ => (⟨"Failed to generate answer", 0⟩, ⟨[(question, truncated)], []⟩)
  | .ok score =>
    let prompt := promptFor question
    match o.llmGenerate prompt with
    | .error _ => (⟨"Failed to generate answer", 0⟩, ⟨[(question, truncated)], [prompt]⟩)
    | .ok generated =>
      (⟨pyStrip (strDrop generated prompt.data.length), score.getD 0⟩,
       ⟨[(question, truncated)], [prompt]⟩)

/-- The effective QAAgent._process_paper (the later definition in the class body, which
shadows the earlier full-text variant): the context is the abstract, and a paper with an
empty abstract yields no context.  The question argument is unused by this definition. -/
def processPaper (paper : Schemas.Paper) (_question : String) : Option Ctx :=
  if paper.abstract = "" then none
  else some ⟨paper.id, paper.title, paper.abstract, paper.year⟩

/-- QAAgent._gather_contexts: collect the per-paper contexts, skipping papers without one. -/
def gatherContexts (papers : List Schemas.Paper) (question : String) : List Ctx :=
  papers.filterMap (fun p => processPaper p question)

/-- QAAgent._combine_contexts: concatenate contexts with an attribution header each. -/
def combineContexts (contexts : List Ctx) : String :=
  String.intercalate "\n\n"
    (contexts.map (fun c => "From " ++ c.title ++ " (" ++ toString c.year ++ "):\n" ++ c.text))

/-- The effective QAAgent._format_response (the later definition in the class body):
each source excerpt is the first 200 characters of its context text followed by dots,
and context_used is the first 1000 characters of the combined context. -/
def formatResponse (answer : AnswerD) (contexts : List Ctx) (combined : String) : QAResponse :=
  ⟨answer.text, answer.confidence,
   contexts.map (fun c => ⟨c.paper_id, c.title, c.year, strTake c.text 200 ++ "..."⟩),
   strTake combined 1000⟩

/-- QAAgent.answer_question: validate that papers and question are non-empty, then either
the single-paper path through processPaper or the multi-paper path through the ranker,
with the generated answer packaged by the effective response formatter.  The ranker is
the external embedding collaborator, passed as a function. -/
def answer_question (o : GenOracles) (rank : List Ctx → String → List Ctx)
    (papers : List Schemas.Paper) (question : String) :
    Except String QAResponse × CallTrace :=
  if papers = [] ∨ question = "" then
    (.error "Papers list and question cannot be empty", ⟨[], []⟩)
  else
    match papers with
    | [paper] =>
      match processPaper paper question with
      | none => (.error "No relevant content found in paper", ⟨[], []⟩)
      | some ctx =>
        let g := generateAnswer o question ctx.text
        (.ok (formatResponse g.1 [ctx] ctx.text), g.2)
    | ps =>
      let top := (rank (gatherContexts ps question) question).take 3
      let combined := combineContexts top
      let g := generateAnswer o question combined
      (.ok (formatResponse g.1 top combined), g.2)

end QAAgent

namespace Api

/-- An HTTP error response: status code and detail message. -/
structure HTTPError where
  status : Nat
  detail : String
deriving DecidableEq

/-- The POST /answer handler of backend/main.py: reject an empty paper list or question
with a 422 before touching the QA agent, forward the agent response on success, and turn
any agent exception into a 500 carrying the exception string. -/
def answer_question (o : QAAgent.GenOracles)
    (rank : List QAAgent.Ctx → String → List QAAgent.Ctx)
    (papers : List Schemas.Paper) (question : String) :
    Except HTTPError QAAgent.QAResponse × QAAgent.CallTrace :=
  if papers = [] ∨ question = "" then
    (.error ⟨422, "Both paper_ids and question are required"⟩, ⟨[], []⟩)
  else
    match QAAgent.answer_question o rank papers question with
    | (.ok r, tr) => (.ok r, tr)
    | (.error e, tr) => (.error ⟨500, e⟩, tr)

end Api

namespace FutureWorksAgent

/-- The metrics dictionary of FutureWorksAgent.analyze_improvement_plan. -/
structure Metrics where
  accuracy_improvement : ℚ
  computational_efficiency_gain : ℚ
deriving DecidableEq

/-- The result dictionary of FutureWorksAgent.create_improvement_plan. -/
structure ImprovementPlanResult where
  improvement_plan : String
  findings : List String
  metrics : Metrics
deriving DecidableEq

/-- FutureWorksAgent.create_prompt: one block of title, year and abstract per paper,
wrapped in the fixed instructions ending in the summary marker. -/
def create_prompt (papers : List Schemas.Paper) : String :=
  let papersText := String.intercalate "\n\n"
    (papers.map (fun p =>
      "Title: " ++ p.title ++ "\nYear: " ++ toString p.year ++ "\nAbstract: " ++ p.abstract))
  "Using the key findings from the following papers:\n\n" ++ papersText ++
    "\n\nGenerate an improvement plan that includes novel contributions and suggestions for new research directions. Structure it as a cohesive plan.\n\nSummary of the work presented:\n"

/-- Suffix of the list after the first occurrence of the marker, when the marker occurs. -/
def findAfter (marker : List Char) : List Char → Option (List Char)
  | [] => if marker.isEmpty then some [] else none
  | c :: t =>
    if List.isPrefixOf marker (c :: t) then some ((c :: t).drop marker.length)
    else findAfter marker t

/-- The fixed marker used to trim the decoded text in FutureWorksAgent.llm_generate. -/
def summaryMarker : String := "Summary of the work presented:"

/-- Post-processing of the decoded text in FutureWorksAgent.llm_generate: keep only what
follows the marker, stripped, when the marker occurs. -/
def postProcessPlan (txt : String) : String :=
  match findAfter summaryMarker.data txt.data with
  | some rest => pyStrip ⟨rest⟩
  | none => txt

/-- FutureWorksAgent.llm_generate together with llm_generate_async: a raising generation
step degrades to the fixed failure text, otherwise the decoded text is post-processed. -/
def llm_generate (outcome : Except String String) : String :=
  match outcome with
  | .error _ => "Failed to generate improvement plan."
  | .ok txt => postProcessPlan txt

/-- FutureWorksAgent.analyze_improvement_plan: a placeholder that ignores the plan and
returns fixed findings and metrics. -/
def analyze_improvement_plan (_plan : String) : List String × Metrics :=
  (["Finding 1: Enhanced methodology improves accuracy by 15%.",
    "Finding 2: Incorporating X technique reduces computational overhead."],
   ⟨15/100, 20/100⟩)

/-- FutureWorksAgent.create_improvement_plan: build the prompt, generate and post-process
the plan, then attach the findings and metrics extracted by the placeholder analysis. -/
def create_improvement_plan (gen : String → Except String String)
    (papers : List Schemas.Paper) : ImprovementPlanResult :=
  let prompt := create_prompt papers
  let plan := llm_generate (gen prompt)
  ⟨plan, (analyze_improvement_plan plan).1, (analyze_improvement_plan plan).2⟩

end FutureWorksAgent

/-- A generation oracle that always succeeds, for concrete runs. -/
def oracleOk : QAAgent.GenOracles :=
  ⟨fun _ _ => .ok (some (1/2 : ℚ)), fun p => .ok (p ++ " The answer.")⟩

/-- A generation oracle whose causal model always raises, for concrete runs. -/
def oracleFail : QAAgent.GenOracles :=
  ⟨fun _ _ => .ok (some (1 : ℚ)), fun _ => .error "boom"⟩

/-- An identity ranker, for concrete runs. -/
def rankId : List QAAgent.Ctx → String → List QAAgent.Ctx := fun cs _ => cs


/-- Concrete papers used by witnesses and counterexamples. -/
def paperFT : Schemas.Paper :=
  ⟨"p1", "T", ["a"], "ABSTRACT", 2020, "u", true, false, some "FULLTEXT", none⟩

/-- A paper with only an abstract, used by witnesses. -/
def paperAbs : Schemas.Paper :=
  ⟨"p2", "T2", ["a"], "Only abstract.", 2019, "u2", false, false, none, none⟩

theorem strData_append (a b : String) : (a ++ b).data = a.data ++ b.data := by
  cases a
  cases b
  rfl

theorem isPrefixOf_self_append (l t : List Char) : List.isPrefixOf l (l ++ t) = true := by
  induction l with
  | nil => cases t <;> simp [List.isPrefixOf]
  | cons a l ih => simp [List.isPrefixOf, ih]

theorem listContainsSub_sandwich (pre sub suf : List Char) :
    listContainsSub sub (pre ++ (sub ++ suf)) = true := by
  induction pre with
  | nil =>
    cases sub with
    | nil => cases suf <;> simp [listContainsSub, List.isPrefixOf]
    | cons a s =>
      have h := isPrefixOf_self_append (a :: s) suf
      simp only [List.nil_append, List.cons_append] at h ⊢
      simp [listContainsSub, h]
  | cons c pre ih => simp [listContainsSub, ih]

theorem strContains_sandwich (a q b : String) : strContains (a ++ q ++ b) q = true := by
  show listContainsSub q.data (a ++ q ++ b).data = true
  rw [strData_append, strData_append, List.append_assoc]
  exact listContainsSub_sandwich a.data q.data b.data

theorem generateAnswer_pipelineCalls (o : QAAgent.GenOracles) (q c : String) :
    (QAAgent.generateAnswer o q c).2.pipelineCalls = [(q, strTake c 500)] := by
  unfold QAAgent.generateAnswer
  rcases hp : o.qaPipeline q (strTake c 500) with e | s
  · simp [hp]
  · rcases hg : o.llmGenerate (QAAgent.promptFor q) with e | g <;> simp [hp, hg]

theorem generateAnswer_llmPrompts (o : QAAgent.GenOracles) (q c : String) :
    ∀ p ∈ (QAAgent.generateAnswer o q c).2.llmPrompts, p = QAAgent.promptFor q := by
  unfold QAAgent.generateAnswer
  rcases hp : o.qaPipeline q (strTake c 500) with e | s
  · simp [hp]
  · rcases hg : o.llmGenerate (QAAgent.promptFor q) with e | g <;> simp [hp, hg]

/-- C8 as written fails at the get-by-id operation: an error raised while acquiring the
session lies outside the try/except of Neo4jHandler.get_paper_by_id and propagates to
the caller instead of being caught and turned into None. -/
theorem get_by_id_uncaught_session_error_cex :
    Neo4jHandler.get_paper_by_id
      (.error "TypeError: Session object does not support the asynchronous context manager protocol")
      (.ok none) "p1" =
    .error "TypeError: Session object does not support the asynchronous context manager protocol" :=
  rfl

/-- C8 amended: the three DBAgent operations catch every underlying storage error, log it
and return False with the graph unchanged or an empty result; in
Neo4jHandler.get_paper_by_id only an error raised inside the query stage is caught,
logged and turned into None, while an error at session acquisition propagates uncaught
to the caller. -/
theorem store_operations_error_policy (db : DBAgent.GraphDB) (p : DBAgent.Paper)
    (topic : String) (y : Int) (lim : Nat) (pid e : String)
    (q : Except String (Option Neo4jHandler.PaperRec)) :
    DBAgent.store_paper db (some e) p =
      ((db, false), ["Error storing paper " ++ p.id ++ ": " ++ e]) ∧
    DBAgent.query_papers db (some e) topic y lim =
      ([], ["Error querying papers: " ++ e]) ∧
    DBAgent.get_related_papers db (some e) pid lim =
      ([], ["Error finding related papers: " ++ e]) ∧
    Neo4jHandler.get_paper_by_id (.ok ()) (.error e) pid =
      .ok (none, ["Error fetching paper by id " ++ pid ++ ": " ++ e]) ∧
    Neo4jHandler.get_paper_by_id (.error e) q pid = .error e :=
  ⟨rfl, rfl, rfl, rfl, rfl⟩

/-- C9: the improvement-plan result carries fixed stub findings and metrics, the same two
finding strings and the same metrics values on every call, independent of the papers and
of the generated text. -/
theorem improvement_plan_stub_findings (gen : String → Except String String)
    (papers : List Schemas.Paper) :
    (FutureWorksAgent.create_improvement_plan gen papers).findings =
      ["Finding 1: Enhanced methodology improves accuracy by 15%.",
       "Finding 2: Incorporating X technique reduces computational overhead."] ∧
    (FutureWorksAgent.create_improvement_plan gen papers).metrics =
      ⟨15/100, 20/100⟩ :=
  ⟨rfl, rfl⟩

/-- C6: QA with an empty paper list or an empty question fails validation before any call
to either engine is made, and the endpoint surfaces the validation failure as a 422
instead of converting it into a degraded answer. -/
theorem qa_empty_input_validation (o : QAAgent.GenOracles)
    (rank : List QAAgent.Ctx → String → List QAAgent.Ctx)
    (papers : List Schemas.Paper) (q : String) (h : papers = [] ∨ q = "") :
    QAAgent.answer_question o rank papers q =
      (.error "Papers list and question cannot be empty", ⟨[], []⟩) ∧
    Api.answer_question o rank papers q =
      (.error ⟨422, "Both paper_ids and question are required"⟩, ⟨[], []⟩) := by
  constructor
  · unfold QAAgent.answer_question
    rw [if_pos h]
  · unfold Api.answer_question
    rw [if_pos h]

/-- Witness for C6 at the concrete input of an empty paper list. -/
theorem qa_empty_input_validation_witness :
    QAAgent.answer_question oracleOk rankId [] "What" =
      (.error "Papers list and question cannot be empty", ⟨[], []⟩) ∧
    Api.answer_question oracleOk rankId [] "What" =
      (.error ⟨422, "Both paper_ids and question are required"⟩, ⟨[], []⟩) :=
  qa_empty_input_validation oracleOk rankId [] "What" (Or.inl rfl)

/-- C7: an exception raised by either generation step degrades to the fixed failure
answer text with confidence zero instead of propagating. -/
theorem generate_answer_degrades_on_failure (o : QAAgent.GenOracles) (q c : String)
    (h : (∃ e, o.qaPipeline q (strTake c 500) = .error e) ∨
         (∃ e, o.llmGenerate (QAAgent.promptFor q) = .error e)) :
    (QAAgent.generateAnswer o q c).1 = ⟨"Failed to generate answer", 0⟩ := by
  unfold QAAgent.generateAnswer
  rcases h with ⟨e, he⟩ | ⟨e, he⟩
  · simp [he]
  · rcases hp : o.qaPipeline q (strTake c 500) with e2 | s
    · simp [hp]
    · simp [hp, he]

/-- Witness for C7 at a concrete oracle whose generation step raises. -/
theorem generate_answer_degrades_on_failure_witness :
    (QAAgent.generateAnswer oracleFail "q" "ctx").1 = ⟨"Failed to generate answer", 0⟩ :=
  generate_answer_degrades_on_failure oracleFail "q" "ctx" (Or.inr ⟨"boom", rfl⟩)

/-- C1 as written fails at question q and combined context zzz: the prompt sent to the
generation engine does not include the combined context. -/
theorem generation_prompt_lacks_context_cex :
    (QAAgent.generateAnswer oracleOk "q" "zzz").2.llmPrompts = ["Question: q\nAnswer:"] ∧
    strContains "Question: q\nAnswer:" "zzz" = false ∧
    ("q" : String) ≠ "" ∧ ("zzz" : String) ≠ "" := by decide

/-- C1 amended: the prompt sent to the generation engine is exactly the fixed question
frame, which contains the question but not the combined context; the combined context is
sent only to the extractive pipeline, truncated to its first 500 characters. -/
theorem generation_prompt_shape (o : QAAgent.GenOracles) (q c : String) :
    (QAAgent.generateAnswer o q c).2.pipelineCalls = [(q, strTake c 500)] ∧
    ∀ p ∈ (QAAgent.generateAnswer o q c).2.llmPrompts,
      p = "Question: " ++ q ++ "\nAnswer:" ∧ strContains p q = true := by
  refine ⟨generateAnswer_pipelineCalls o q c, ?_⟩
  intro p hp
  have he := generateAnswer_llmPrompts o q c p hp
  subst he
  exact ⟨rfl, strContains_sandwich "Question: " q "\nAnswer:"⟩

/-- Witness for the amended C1 at a concrete question and context. -/
theorem generation_prompt_shape_witness :
    ("Question: q\nAnswer:" : String) = "Question: " ++ "q" ++ "\nAnswer:" ∧
    strContains "Question: q\nAnswer:" "q" = true :=
  (generation_prompt_shape oracleOk "q" "ctx").2 "Question: q\nAnswer:" (by decide)

/-- C2 as written fails: with full text present, the single-paper context passed to
generation is still the abstract, because the later definition of the paper processor
shadows the full-text variant. -/
theorem single_paper_full_text_ignored_cex :
    paperFT.full_text = some "FULLTEXT" ∧
    (QAAgent.answer_question oracleOk rankId [paperFT] "q").2.pipelineCalls =
      [("q", "ABSTRACT")] ∧
    ((QAAgent.answer_question oracleOk rankId [paperFT] "q").1.toOption.map
       (fun r => r.context_used)) = some "ABSTRACT" ∧
    ("ABSTRACT" : String) ≠ "FULLTEXT" := by decide

/-- C2 amended: the effective single-paper context is always the abstract; a paper with a
non-empty abstract is answered from the abstract without error, whether or not full text
is present, and the outcome is invariant under changing the full text. -/
theorem single_paper_abstract_context (o : QAAgent.GenOracles)
    (rank : List QAAgent.Ctx → String → List QAAgent.Ctx)
    (paper : Schemas.Paper) (q : String) (hq : q ≠ "") (ha : paper.abstract ≠ "") :
    (∃ resp, (QAAgent.answer_question o rank [paper] q).1 = .ok resp ∧
       resp.context_used = strTake paper.abstract 1000) ∧
    (QAAgent.answer_question o rank [paper] q).2.pipelineCalls =
      [(q, strTake paper.abstract 500)] ∧
    ∀ ft, QAAgent.answer_question o rank [{paper with full_text := ft}] q =
          QAAgent.answer_question o rank [paper] q := by
  have hcond : ¬([paper] = [] ∨ q = "") := by
    rintro (h | h)
    · exact List.cons_ne_nil _ _ h
    · exact hq h
  have hpp : QAAgent.processPaper paper q =
      some ⟨paper.id, paper.title, paper.abstract, paper.year⟩ := by
    unfold QAAgent.processPaper
    rw [if_neg ha]
  have hrun : QAAgent.answer_question o rank [paper] q =
      (.ok (QAAgent.formatResponse (QAAgent.generateAnswer o q paper.abstract).1
            [⟨paper.id, paper.title, paper.abstract, paper.year⟩] paper.abstract),
       (QAAgent.generateAnswer o q paper.abstract).2) := by
    unfold QAAgent.answer_question
    rw [if_neg hcond]
    simp only [hpp]
  refine ⟨⟨_, by rw [hrun], rfl⟩, ?_, ?_⟩
  · rw [hrun]
    exact generateAnswer_pipelineCalls o q paper.abstract
  · intro ft
    have hcond2 : ¬([{paper with full_text := ft}] = [] ∨ q = "") := by
      rintro (h | h)
      · exact List.cons_ne_nil _ _ h
      · exact hq h
    unfold QAAgent.answer_question
    rw [if_neg hcond2, if_neg hcond]
    exact rfl

/-- Witness for the amended C2 at a concrete abstract-only paper. -/
theorem single_paper_abstract_context_witness :
    (∃ resp, (QAAgent.answer_question oracleOk rankId [paperAbs] "q").1 = .ok resp ∧
       resp.context_used = strTake paperAbs.abstract 1000) ∧
    (QAAgent.answer_question oracleOk rankId [paperAbs] "q").2.pipelineCalls =
      [("q", strTake paperAbs.abstract 500)] ∧
    QAAgent.answer_question oracleOk rankId [{paperAbs with full_text := some "X"}] "q" =
      QAAgent.answer_question oracleOk rankId [paperAbs] "q" := by
  obtain ⟨h1, h2, h3⟩ :=
    single_paper_abstract_context oracleOk rankId paperAbs "q" (by decide) (by decide)
  exact ⟨h1, h2, h3 (some "X")⟩

/-- C10: every successfully formatted QA response has each source excerpt equal to the
first 200 characters of its context text followed by dots, and context_used equal to the
first 1000 characters of the combined context actually handed to the generation step. -/
theorem qa_response_truncation (o : QAAgent.GenOracles)
    (rank : List QAAgent.Ctx → String → List QAAgent.Ctx)
    (papers : List Schemas.Paper) (q : String) (resp : QAAgent.QAResponse)
    (tr : QAAgent.CallTrace)
    (h : QAAgent.answer_question o rank papers q = (.ok resp, tr)) :
    ∃ (ctxs : List QAAgent.Ctx) (combined : String),
      resp.sources = ctxs.map (fun c => ⟨c.paper_id, c.title, c.year,
        strTake c.text 200 ++ "..."⟩) ∧
      resp.context_used = strTake combined 1000 ∧
      tr.pipelineCalls = [(q, strTake combined 500)] := by
  by_cases hc : papers = [] ∨ q = ""
  · unfold QAAgent.answer_question at h
    rw [if_pos hc] at h
    simp at h
  · rcases papers with _ | ⟨p1, rest⟩
    · exact absurd (Or.inl rfl) hc
    rcases rest with _ | ⟨p2, rest⟩
    · rcases hpp : QAAgent.processPaper p1 q with _ | ctx
      · have hrun : QAAgent.answer_question o rank [p1] q =
            (.error "No relevant content found in paper", ⟨[], []⟩) := by
          unfold QAAgent.answer_question
          rw [if_neg hc]
          simp only [hpp]
        rw [hrun] at h
        simp at h
      · have hrun : QAAgent.answer_question o rank [p1] q =
            (.ok (QAAgent.formatResponse (QAAgent.generateAnswer o q ctx.text).1
                   [ctx] ctx.text),
             (QAAgent.generateAnswer o q ctx.text).2) := by
          unfold QAAgent.answer_question
          rw [if_neg hc]
          simp only [hpp]
        rw [hrun] at h
        simp only [Prod.mk.injEq, Except.ok.injEq] at h
        obtain ⟨h1, h2⟩ := h
        subst h1
        subst h2
        refine ⟨[ctx], ctx.text, rfl, rfl, ?_⟩
        exact generateAnswer_pipelineCalls o q ctx.text
    · have hrun : QAAgent.answer_question o rank (p1 :: p2 :: rest) q =
          (.ok (QAAgent.formatResponse
                 (QAAgent.generateAnswer o q (QAAgent.combineContexts
                   ((rank (QAAgent.gatherContexts (p1 :: p2 :: rest) q) q).take 3))).1
                 ((rank (QAAgent.gatherContexts (p1 :: p2 :: rest) q) q).take 3)
                 (QAAgent.combineContexts
                   ((rank (QAAgent.gatherContexts (p1 :: p2 :: rest) q) q).take 3))),
           (QAAgent.generateAnswer o q (QAAgent.combineContexts
             ((rank (QAAgent.gatherContexts (p1 :: p2 :: rest) q) q).take 3))).2) := by
        unfold QAAgent.answer_question
        rw [if_neg hc]
      rw [hrun] at h
      simp only [Prod.mk.injEq, Except.ok.injEq] at h
      obtain ⟨h1, h2⟩ := h
      subst h1
      subst h2
      refine ⟨_, _, rfl, rfl, ?_⟩
      exact generateAnswer_pipelineCalls o q _

/-- The concrete response of a single-paper run, used by the C10 witness. -/
def respW : QAAgent.QAResponse :=
  ⟨"The answer.", 1/2, [⟨"p2", "T2", 2019, "Only abstract...."⟩], "Only abstract."⟩

/-- The concrete call trace of a single-paper run, used by the C10 witness. -/
def trW : QAAgent.CallTrace :=
  ⟨[("q", "Only abstract.")], ["Question: q\nAnswer:"]⟩

/-- Witness for C10 at a concrete single-paper run. -/
theorem qa_response_truncation_witness :
    ∃ (ctxs : List QAAgent.Ctx) (combined : String),
      respW.sources = ctxs.map (fun c => ⟨c.paper_id, c.title, c.year,
        strTake c.text 200 ++ "..."⟩) ∧
      respW.context_used = strTake combined 1000 ∧
      trW.pipelineCalls = [("q", strTake combined 500)] :=
  qa_response_truncation oracleOk rankId [paperAbs] "q" respW trW rfl

theorem authorFold_papers (pid : String) (l : List String) (d : DBAgent.GraphDB) :
    (l.foldl (fun d a =>
      { d with authors := DBAgent.mergeName d.authors a,
               authored := DBAgent.mergeEdge d.authored (a, pid) }) d).papers = d.papers := by
  induction l generalizing d with
  | nil => rfl
  | cons a l ih => rw [List.foldl_cons, ih]

theorem keywordFold_papers (pid : String) (l : List String) (d : DBAgent.GraphDB) :
    (l.foldl (fun d k =>
      { d with keywords := DBAgent.mergeName d.keywords k,
               hasKeyword := DBAgent.mergeEdge d.hasKeyword (pid, k) }) d).papers = d.papers := by
  induction l generalizing d with
  | nil => rfl
  | cons k l ih => rw [List.foldl_cons, ih]

theorem createPaperTx_papers (db : DBAgent.GraphDB) (p : DBAgent.Paper) :
    (DBAgent.createPaperTx db p).1.papers = DBAgent.mergePaperNode db.papers p := by
  simp only [DBAgent.createPaperTx]
  rw [keywordFold_papers, authorFold_papers]

theorem filter_id_single (l : List DBAgent.PaperNode) (pid : String)
    (hnd : (l.map (fun n => n.id)).Nodup) (n0 : DBAgent.PaperNode)
    (hmem : n0 ∈ l) (hid : n0.id = pid) :
    l.filter (fun n => n.id == pid) = [n0] := by
  induction l with
  | nil => cases hmem
  | cons m t ih =>
    rw [List.map_cons, List.nodup_cons] at hnd
    obtain ⟨hm, hnd2⟩ := hnd
    rcases List.mem_cons.mp hmem with h0 | hmem2
    · subst h0
      rw [List.filter_cons_of_pos (by simp [hid])]
      have ht : t.filter (fun n => n.id == pid) = [] := by
        rw [List.filter_eq_nil_iff]
        intro x hx hbeq
        exact hm (hid ▸ (beq_iff_eq.mp hbeq) ▸ List.mem_map_of_mem (fun n => n.id) hx)
      rw [ht]
    · have hm2 : (m.id == pid) = false := by
        apply beq_eq_false_iff_ne.mpr
        intro hEq
        apply hm
        rw [hEq, ← hid]
        exact List.mem_map_of_mem (fun n => n.id) hmem2
      rw [List.filter_cons, if_neg]
      · exact ih hnd2 hmem2
      · simp [hm2]

theorem setFields_id (n : DBAgent.PaperNode) (p : DBAgent.Paper) :
    (DBAgent.setFields n p).id = n.id := rfl

theorem mergePaperNode_filter (papers : List DBAgent.PaperNode) (p : DBAgent.Paper)
    (hnd : (papers.map (fun n => n.id)).Nodup) :
    (DBAgent.mergePaperNode papers p).filter (fun n => n.id == p.id) =
      [⟨p.id, p.title, p.summary, p.year, p.url⟩] := by
  unfold DBAgent.mergePaperNode
  by_cases hany : papers.any (fun n => n.id == p.id) = true
  · rw [if_pos hany]
    obtain ⟨n0, hn0, hbeq⟩ := List.any_eq_true.mp hany
    have hid : n0.id = p.id := beq_iff_eq.mp hbeq
    have hcomp : ((fun n : DBAgent.PaperNode => n.id == p.id) ∘
        (fun n => if n.id == p.id then DBAgent.setFields n p else n)) =
        (fun n : DBAgent.PaperNode => n.id == p.id) := by
      funext n
      by_cases h : (n.id == p.id) = true
      · simp only [Function.comp_apply, if_pos h, setFields_id]
      · simp only [Function.comp_apply, if_neg h]
    rw [List.filter_map, hcomp, filter_id_single papers p.id hnd n0 hn0 hid]
    rw [List.map_cons, List.map_nil, if_pos hbeq]
    show [DBAgent.setFields n0 p] = _
    unfold DBAgent.setFields
    rw [hid]
  · rw [if_neg hany]
    have hnone := List.any_eq_false.mp (Bool.not_eq_true _ ▸ hany)
    rw [List.filter_append]
    have h1 : papers.filter (fun n => n.id == p.id) = [] := by
      rw [List.filter_eq_nil_iff]
      exact hnone
    have h2 : [(⟨p.id, p.title, p.summary, p.year, p.url⟩ : DBAgent.PaperNode)].filter
        (fun n => n.id == p.id) = [⟨p.id, p.title, p.summary, p.year, p.url⟩] := by
      simp [List.filter_cons]
    rw [h1, h2, List.nil_append]

theorem mergePaperNode_ids_nodup (papers : List DBAgent.PaperNode) (p : DBAgent.Paper)
    (hnd : (papers.map (fun n => n.id)).Nodup) :
    ((DBAgent.mergePaperNode papers p).map (fun n => n.id)).Nodup := by
  unfold DBAgent.mergePaperNode
  by_cases hany : papers.any (fun n => n.id == p.id) = true
  · rw [if_pos hany, List.map_map]
    have hcomp : ((fun n : DBAgent.PaperNode => n.id) ∘
        (fun n => if n.id == p.id then DBAgent.setFields n p else n)) =
        (fun n : DBAgent.PaperNode => n.id) := by
      funext n
      by_cases h : (n.id == p.id) = true
      · simp only [Function.comp_apply, if_pos h, setFields_id]
      · simp only [Function.comp_apply, if_neg h]
    rw [hcomp]
    exact hnd
  · rw [if_neg hany, List.map_append]
    have hnone := List.any_eq_false.mp (Bool.not_eq_true _ ▸ hany)
    rw [List.nodup_append]
    refine ⟨hnd, List.nodup_singleton _, ?_⟩
    intro x hx hy
    rw [List.map_singleton, List.mem_singleton] at hy
    subst hy
    obtain ⟨n, hn, hnx⟩ := List.mem_map.mp hx
    exact hnone n hn (beq_iff_eq.mpr hnx)

theorem mergePaperNode_length_of_any (papers : List DBAgent.PaperNode) (p : DBAgent.Paper)
    (hany : papers.any (fun n => n.id == p.id) = true) :
    (DBAgent.mergePaperNode papers p).length = papers.length := by
  unfold DBAgent.mergePaperNode
  rw [if_pos hany, List.length_map]

/-- C3: storing a paper id twice is an upsert keyed by id: afterwards exactly one Paper
node carries that id, its fields are those of the second store, the node count is
unchanged by the second store, and id uniqueness is preserved. -/
theorem store_paper_upsert (db : DBAgent.GraphDB) (p1 p2 : DBAgent.Paper)
    (hwf : DBAgent.WF db) (hid : p1.id = p2.id) :
    ((DBAgent.createPaperTx (DBAgent.createPaperTx db p1).1 p2).1.papers.filter
        (fun n => n.id == p2.id)) =
      [⟨p2.id, p2.title, p2.summary, p2.year, p2.url⟩] ∧
    (DBAgent.createPaperTx (DBAgent.createPaperTx db p1).1 p2).1.papers.length =
      (DBAgent.createPaperTx db p1).1.papers.length ∧
    DBAgent.WF (DBAgent.createPaperTx (DBAgent.createPaperTx db p1).1 p2).1 := by
  have h1 : (DBAgent.createPaperTx db p1).1.papers = DBAgent.mergePaperNode db.papers p1 :=
    createPaperTx_papers db p1
  have hnd1 : ((DBAgent.createPaperTx db p1).1.papers.map (fun n => n.id)).Nodup := by
    rw [h1]
    exact mergePaperNode_ids_nodup db.papers p1 hwf
  have h2 : (DBAgent.createPaperTx (DBAgent.createPaperTx db p1).1 p2).1.papers =
      DBAgent.mergePaperNode (DBAgent.createPaperTx db p1).1.papers p2 :=
    createPaperTx_papers _ p2
  have hfilter1 : (DBAgent.createPaperTx db p1).1.papers.filter
      (fun n => n.id == p1.id) = [⟨p1.id, p1.title, p1.summary, p1.year, p1.url⟩] := by
    rw [h1]
    exact mergePaperNode_filter db.papers p1 hwf
  have hmem : (⟨p1.id, p1.title, p1.summary, p1.year, p1.url⟩ : DBAgent.PaperNode) ∈
      (DBAgent.createPaperTx db p1).1.papers := by
    have : (⟨p1.id, p1.title, p1.summary, p1.year, p1.url⟩ : DBAgent.PaperNode) ∈
        (DBAgent.createPaperTx db p1).1.papers.filter (fun n => n.id == p1.id) := by
      rw [hfilter1]
      exact List.mem_singleton.mpr rfl
    exact List.mem_of_mem_filter this
  have hany : (DBAgent.createPaperTx db p1).1.papers.any (fun n => n.id == p2.id) = true := by
    rw [List.any_eq_true]
    exact ⟨⟨p1.id, p1.title, p1.summary, p1.year, p1.url⟩, hmem, beq_iff_eq.mpr hid⟩
  refine ⟨?_, ?_, ?_⟩
  · rw [h2]
    exact mergePaperNode_filter _ p2 hnd1
  · rw [h2]
    exact mergePaperNode_length_of_any _ p2 hany
  · show ((DBAgent.createPaperTx (DBAgent.createPaperTx db p1).1 p2).1.papers.map
      (fun n => n.id)).Nodup
    rw [h2]
    exact mergePaperNode_ids_nodup _ p2 hnd1

/-- An empty graph, used by witnesses. -/
def dbEmpty : DBAgent.GraphDB := ⟨[], [], [], [], []⟩

/-- A first store of id p1, used by the C3 witness. -/
def pFirst : DBAgent.Paper := ⟨"p1", "Old title", ["a"], "s1", 2020, "u1", some ["k"]⟩

/-- A second store of id p1 with different fields, used by the C3 witness. -/
def pSecond : DBAgent.Paper := ⟨"p1", "New title", ["a"], "s2", 2021, "u2", some ["k"]⟩

/-- Witness for C3 at a concrete pair of stores of the same id. -/
theorem store_paper_upsert_witness :
    ((DBAgent.createPaperTx (DBAgent.createPaperTx dbEmpty pFirst).1 pSecond).1.papers.filter
        (fun n => n.id == pSecond.id)) =
      [⟨pSecond.id, pSecond.title, pSecond.summary, pSecond.year, pSecond.url⟩] ∧
    (DBAgent.createPaperTx (DBAgent.createPaperTx dbEmpty pFirst).1 pSecond).1.papers.length =
      (DBAgent.createPaperTx dbEmpty pFirst).1.papers.length ∧
    DBAgent.WF (DBAgent.createPaperTx (DBAgent.createPaperTx dbEmpty pFirst).1 pSecond).1 :=
  store_paper_upsert dbEmpty pFirst pSecond List.nodup_nil rfl

/-- C4: the paper search returns only papers whose title or summary contains the topic as
a case-sensitive substring and whose year reaches the threshold, each joined with its
authors and keywords, ordered by year descending, with at most limit results. -/
theorem query_papers_spec (db : DBAgent.GraphDB) (topic : String) (startYear : Int)
    (limit : Nat) :
    (DBAgent.queryPapersTx db topic startYear limit).length ≤ limit ∧
    List.Pairwise (fun a b : DBAgent.Paper => b.year ≤ a.year)
      (DBAgent.queryPapersTx db topic startYear limit) ∧
    ∀ r ∈ DBAgent.queryPapersTx db topic startYear limit,
      startYear ≤ r.year ∧
      (strContains r.title topic || strContains r.summary topic) = true ∧
      r.authors = DBAgent.authorsOf db r.id ∧
      r.keywords = some (DBAgent.keywordsOf db r.id) := by
  refine ⟨?_, ?_, ?_⟩
  · unfold DBAgent.queryPapersTx
    rw [List.length_map, List.length_take]
    exact min_le_left _ _
  · unfold DBAgent.queryPapersTx
    rw [List.pairwise_map]
    have hp : List.Pairwise DBAgent.yearGe
        ((db.papers.filter (DBAgent.matchesQuery db topic startYear)).insertionSort
          DBAgent.yearGe) :=
      List.sorted_insertionSort DBAgent.yearGe _
    exact hp.sublist (List.take_sublist _ _)
  · intro r hr
    unfold DBAgent.queryPapersTx at hr
    obtain ⟨n, hn, hfn⟩ := List.mem_map.mp hr
    have hn2 : n ∈ (db.papers.filter (DBAgent.matchesQuery db topic startYear)).insertionSort
        DBAgent.yearGe := List.mem_of_mem_take hn
    have hn3 : n ∈ db.papers.filter (DBAgent.matchesQuery db topic startYear) :=
      (List.perm_insertionSort DBAgent.yearGe _).mem_iff.mp hn2
    have hmq := (List.mem_filter.mp hn3).2
    simp only [DBAgent.matchesQuery, Bool.and_eq_true, decide_eq_true_eq] at hmq
    subst hfn
    exact ⟨hmq.1.1.1, hmq.1.1.2, rfl, rfl⟩

/-- A graph with a single matching paper, used by the C4 witness. -/
def dbW : DBAgent.GraphDB :=
  ⟨[⟨"p1", "Alpha quantum", "s", 2021, "u"⟩], ["a"], ["k"], [("a", "p1")], [("p1", "k")]⟩

/-- The row the search returns on dbW, used by the C4 witness. -/
def rW : DBAgent.Paper := ⟨"p1", "Alpha quantum", ["a"], "s", 2021, "u", some ["k"]⟩

/-- Witness for C4 at a concrete graph and query. -/
theorem query_papers_spec_witness :
    (DBAgent.queryPapersTx dbW "quantum" 2020 10).length ≤ 10 ∧
    ((2020 : Int) ≤ rW.year ∧
      (strContains rW.title "quantum" || strContains rW.summary "quantum") = true ∧
      rW.authors = DBAgent.authorsOf dbW rW.id ∧
      rW.keywords = some (DBAgent.keywordsOf dbW rW.id)) :=
  ⟨(query_papers_spec dbW "quantum" 2020 10).1,
   (query_papers_spec dbW "quantum" 2020 10).2.2 rW (by decide)⟩

/-- C5: the related-papers query never returns the queried id, returns at most limit
papers, and orders its results by descending shared-keyword count with the queried
paper. -/
theorem related_papers_spec (db : DBAgent.GraphDB) (pid : String) (limit : Nat) :
    (DBAgent.getRelatedPapersTx db pid limit).length ≤ limit ∧
    List.Pairwise (fun a b : DBAgent.Paper =>
      DBAgent.sharedKeywords db pid b.id ≤ DBAgent.sharedKeywords db pid a.id)
      (DBAgent.getRelatedPapersTx db pid limit) ∧
    ∀ r ∈ DBAgent.getRelatedPapersTx db pid limit, r.id ≠ pid := by
  unfold DBAgent.getRelatedPapersTx
  by_cases hex : (db.papers.any (fun n => n.id == pid)) = true
  · rw [if_pos hex]
    refine ⟨?_, ?_, ?_⟩
    · rw [List.length_map]
      refine le_trans (List.length_filter_le _ _) ?_
      rw [List.length_take]
      exact min_le_left _ _
    · rw [List.pairwise_map]
      have hp : List.Pairwise (DBAgent.sharedGe db pid)
          ((db.papers.filter (fun q => (q.id != pid) &&
             decide (0 < DBAgent.sharedKeywords db pid q.id))).insertionSort
             (DBAgent.sharedGe db pid)) :=
        List.sorted_insertionSort (DBAgent.sharedGe db pid) _
      exact (hp.sublist (List.take_sublist _ _)).sublist (List.filter_sublist _)
    · intro r hr
      obtain ⟨n, hn, hfn⟩ := List.mem_map.mp hr
      have hn2 := List.mem_of_mem_filter hn
      have hn3 := List.mem_of_mem_take hn2
      have hn4 := (List.perm_insertionSort (DBAgent.sharedGe db pid) _).mem_iff.mp hn3
      have hcond := (List.mem_filter.mp hn4).2
      rw [Bool.and_eq_true] at hcond
      have hne : n.id ≠ pid := bne_iff_ne.mp hcond.1
      subst hfn
      exact hne
  · rw [if_neg hex]
    exact ⟨Nat.zero_le limit, List.Pairwise.nil, fun r hr => absurd hr (List.not_mem_nil r)⟩

/-- A graph with two papers sharing a keyword, used by the C5 witness. -/
def dbR : DBAgent.GraphDB :=
  ⟨[⟨"p1", "A", "s", 2020, "u"⟩, ⟨"p2", "B", "s", 2021, "u"⟩], ["a"], ["k"],
   [("a", "p1"), ("a", "p2")], [("p1", "k"), ("p2", "k")]⟩

/-- The related paper returned on dbR, used by the C5 witness. -/
def rR : DBAgent.Paper := ⟨"p2", "B", ["a"], "s", 2021, "u", some ["k"]⟩

/-- Witness for C5 at a concrete graph and query. -/
theorem related_papers_spec_witness :
    (DBAgent.getRelatedPapersTx dbR "p1" 5).length ≤ 5 ∧ rR.id ≠ "p1" :=
  ⟨(related_papers_spec dbR "p1" 5).1,
   (related_papers_spec dbR "p1" 5).2.2 rR (by decide)⟩
